import Mathlib

/-!
Shallow embedding of `w3af/core/data/parsers/doc/open_api/parameters.py`
(class `ParameterHandler` and class `ParameterValues`).

Python dict-shaped parameter specifications are modelled by the inductive
type `PSpec`: each optional field corresponds to a key of the mapping
(`none` = key absent).  JSON-ish runtime values are modelled by `Value`;
the externally injected capabilities `smart_fill` / `smart_fill_file` and
the freshly seeded `random.Random(); r.seed(1); r.randint(lo, hi)` call
are modelled symbolically by dedicated `Value` constructors, keeping every
definition computable.
-/

namespace OpenApiParams

/-- JSON-like values flowing through the parameter-filling pipeline.
`vsmart`/`vsmartFile` stand for the injected `smart_fill`/`smart_fill_file`
results, `vrandint seed lo hi` for `random.Random(); seed(seed); randint(lo, hi)`,
`vfloat42` for the float constant `4.2`, `vdate`/`vdatetime` for the two
fixed calendar constants, and `vnone` for Python `None` stored as a value. -/
inductive Value : Type where
  | vnum : Int → Value
  | vfloat42 : Value
  | vstr : String → Value
  | vbool : Bool → Value
  | vdate : Value
  | vdatetime : Value
  | vlist : List Value → Value
  | vobj : List (String × Value) → Value
  | vsmart : String → Value
  | vsmartFile : String → String → Value
  | vrandint : Int → Int → Int → Value
  | vnone : Value

/-- A parameter specification mapping.  Every field models the presence or
absence of the corresponding dict key (`loc` models the `in` key, `ref`
models `$ref`). -/
inductive PSpec : Type where
  | mk (type format name loc ref : Option String)
       (enum : Option (List Value))
       (minimum maximum : Option Int)
       (default : Option Value)
       (items schema : Option PSpec)
       (allOf : Option (List PSpec))
       (required : Option (List String))
       (properties : Option (List (String × PSpec)))

def PSpec.type : PSpec → Option String
  | .mk t _ _ _ _ _ _ _ _ _ _ _ _ _ => t

def PSpec.format : PSpec → Option String
  | .mk _ f _ _ _ _ _ _ _ _ _ _ _ _ => f

def PSpec.name : PSpec → Option String
  | .mk _ _ n _ _ _ _ _ _ _ _ _ _ _ => n

def PSpec.loc : PSpec → Option String
  | .mk _ _ _ l _ _ _ _ _ _ _ _ _ _ => l

def PSpec.ref : PSpec → Option String
  | .mk _ _ _ _ r _ _ _ _ _ _ _ _ _ => r

def PSpec.enum : PSpec → Option (List Value)
  | .mk _ _ _ _ _ e _ _ _ _ _ _ _ _ => e

def PSpec.minimum : PSpec → Option Int
  | .mk _ _ _ _ _ _ mi _ _ _ _ _ _ _ => mi

def PSpec.maximum : PSpec → Option Int
  | .mk _ _ _ _ _ _ _ ma _ _ _ _ _ _ => ma

def PSpec.default : PSpec → Option Value
  | .mk _ _ _ _ _ _ _ _ d _ _ _ _ _ => d

def PSpec.items : PSpec → Option PSpec
  | .mk _ _ _ _ _ _ _ _ _ it _ _ _ _ => it

def PSpec.schema : PSpec → Option PSpec
  | .mk _ _ _ _ _ _ _ _ _ _ sc _ _ _ => sc

def PSpec.allOf : PSpec → Option (List PSpec)
  | .mk _ _ _ _ _ _ _ _ _ _ _ ao _ _ => ao

def PSpec.required : PSpec → Option (List String)
  | .mk _ _ _ _ _ _ _ _ _ _ _ _ rq _ => rq

def PSpec.properties : PSpec → Option (List (String × PSpec))
  | .mk _ _ _ _ _ _ _ _ _ _ _ _ _ pr => pr

/-- Models `del parameter.param_spec['format']` / overwriting the `format` key. -/
def PSpec.withFormat : PSpec → Option String → PSpec
  | .mk t _ n l r e mi ma d it sc ao rq pr, f => .mk t f n l r e mi ma d it sc ao rq pr

/-- Overwriting the `default` key. -/
def PSpec.withDefault : PSpec → Option Value → PSpec
  | .mk t f n l r e mi ma _ it sc ao rq pr, d => .mk t f n l r e mi ma d it sc ao rq pr

/-- Overwriting the `name` key (`property_data['name'] = property_name`). -/
def PSpec.withName : PSpec → Option String → PSpec
  | .mk t f _ l r e mi ma d it sc ao rq pr, n => .mk t f n l r e mi ma d it sc ao rq pr

/-- Overwriting the `required` key of a merged definition. -/
def PSpec.withRequired : PSpec → Option (List String) → PSpec
  | .mk t f n l r e mi ma d it sc ao _ pr, rq => .mk t f n l r e mi ma d it sc ao rq pr

/-- Overwriting the `properties` key of a merged definition. -/
def PSpec.withProperties : PSpec → Option (List (String × PSpec)) → PSpec
  | .mk t f n l r e mi ma d it sc ao rq _, pr => .mk t f n l r e mi ma d it sc ao rq pr

/-- The all-keys-absent mapping `{}`. -/
def PSpec.empty : PSpec :=
  .mk none none none none none none none none none none none none none none

/-- Python-dict assignment `d[k] = v` on a mapping modelled as an ordered
association list: replace the existing binding in place, else append. -/
def dictInsert {α : Type} : List (String × α) → String → α → List (String × α)
  | [], k, v => [(k, v)]
  | (k', v') :: rest, k, v =>
      if k' = k then (k, v) :: rest else (k', v') :: dictInsert rest k v

/-- Models `ParameterHandler.DEFAULT_VALUES_BY_TYPE` as a lookup function. -/
def defaultValuesByType (t : String) : Option Value :=
  if t = "int64" then some (.vnum 42)
  else if t = "int32" then some (.vnum 42)
  else if t = "integer" then some (.vnum 42)
  else if t = "float" then some .vfloat42
  else if t = "double" then some .vfloat42
  else if t = "date" then some .vdate
  else if t = "date-time" then some .vdatetime
  else if t = "boolean" then some (.vbool true)
  else none

/-- Models `ParameterHandler._get_parameter_type`: the `format` key wins over the
`type` key; `none` when neither key is present. -/
def getParameterType (s : PSpec) : Option String :=
  match s.format with
  | some f => some f
  | none => s.type

/-- Models `ParameterHandler._get_param_value_for_type_and_spec`.  Order of checks
follows the source: non-empty `enum` first, then the ranged-numeric branch
(building a freshly seeded `random.Random` with seed 1 and calling
`randint(_min, _max)` with `_min = minimum or 0`, `_max = maximum or 56`),
then the fixed value table, then `string` / `file` delegation. -/
def getParamValueForTypeAndSpec (t : String) (s : PSpec) : Option Value :=
  match s.enum with
  | some (v :: _) => some v
  | _ =>
    if (t = "integer" ∨ t = "float" ∨ t = "double" ∨ t = "int32" ∨ t = "int64") ∧
        (s.maximum.isSome ∨ s.minimum.isSome) then
      some (.vrandint 1 (s.minimum.getD 0) (s.maximum.getD 56))
    else
      match defaultValuesByType t with
      | some v => some v
      | none =>
        if t = "string" then some (.vsmart (s.name.getD "unknown"))
        else if t = "file" then some (.vsmartFile (s.name.getD "unknown") "cat.png")
        else none

/-! ### Spec repair (`_fix_common_spec_issues`) -/

/-- Python 2 `str.isdigit()`: true iff the string is non-empty and every
character is a decimal digit. -/
def pyIsDigit (s : String) : Bool :=
  s.length > 0 && s.all Char.isDigit

/-- Models `_fix_string_format` on one parameter spec: drop `format` when both
`format` and `type` are the string `"string"`. -/
def fixStringFormatSpec (s : PSpec) : PSpec :=
  if s.format = some "string" ∧ s.type = some "string" then s.withFormat none else s

/-- Models `_fix_string_with_invalid_format` on one parameter spec: drop a
numeric-family (or empty) `format` when `type` is `"string"`. -/
def fixStringWithInvalidFormatSpec (s : PSpec) : PSpec :=
  if (s.format = some "int32" ∨ s.format = some "int64" ∨ s.format = some "float" ∨
      s.format = some "double" ∨ s.format = some "") ∧ s.type = some "string" then
    s.withFormat none
  else s

/-- Models `_fix_bad_default_for_number_type` on one parameter spec: when `format`
is a numeric-family format and `default` is a string that does not pass
`isdigit()`, overwrite `default` with the integer `0`. -/
def fixBadDefaultForNumberTypeSpec (s : PSpec) : PSpec :=
  if s.format = some "double" ∨ s.format = some "float" ∨ s.format = some "int32" ∨
      s.format = some "int64" then
    match s.default with
    | some (.vstr d) => if pyIsDigit d then s else s.withDefault (some (.vnum 0))
    | _ => s
  else s

/-- The three repair passes composed on one parameter spec, in source order.
Each pass in `_fix_common_spec_issues` is a full sweep over the operation's
parameters, but every pass touches each parameter independently, so the
sweeps compose pointwise. -/
def fixSpec (s : PSpec) : PSpec :=
  fixBadDefaultForNumberTypeSpec (fixStringWithInvalidFormatSpec (fixStringFormatSpec s))

/-! ### Parameters, operations and the custom value store -/

/-- A bravado `Parameter` as used by `ParameterHandler`: its name, its
`required` flag, its own (author-supplied) `default` attribute, its raw
`param_spec` mapping, and the mutable `fill` attribute set by the handler
(`none` models both "attribute unset" and "set to Python None"). -/
structure Param where
  name : String
  required : Bool
  default : Option Value
  paramSpec : PSpec
  fill : Option Value

/-- A bravado `Operation`: its `path_name` and its ordered mapping of
parameter name to `Parameter`. -/
structure Operation where
  pathName : String
  params : List (String × Param)

/-- Models `ParameterValues.key`. -/
def storeKey (path name : String) : String := path ++ "|" ++ name

/-- The `ParameterValues` store: its `_values` dict. -/
def Store : Type := List (String × List Value)

/-- Models `ParameterValues.is_empty`. -/
def storeIsEmpty (st : Store) : Bool := List.isEmpty st

/-- Models `ParameterValues.get`: empty list when the key is absent or holds a
falsy (empty) list. -/
def storeGet (st : Store) (path name : String) : List Value :=
  match List.lookup (storeKey path name) st with
  | none => []
  | some vs => if vs.isEmpty then [] else vs

/-- Models `ParameterValues.set` (raises unless given a list, which the model's
typing already enforces). -/
def storeSet (st : Store) (path name : String) (vs : List Value) : Store :=
  dictInsert st (storeKey path name) vs

/-! ### Skip logic -/

/-- Models `ParameterHandler._spec_has_default`: the spec defines a `default`
value, or a non-empty `enum`. -/
def specHasDefault (s : PSpec) : Bool :=
  if s.default.isSome then true
  else
    match s.enum with
    | some e => decide (e.length > 0)
    | none => false

/-- Models `ParameterHandler._parameter_has_default`: the `param_spec` itself, or
its `schema` sub-spec when present, defines a default. -/
def parameterHasDefault (p : Param) : Bool :=
  if specHasDefault p.paramSpec then true
  else
    match p.paramSpec.schema with
    | some sch => specHasDefault sch
    | none => false

/-- Models `ParameterHandler._is_header`. -/
def isHeader (p : Param) : Bool := p.paramSpec.loc = some "header"

/-- Models `ParameterHandler._is_header_with_default`. -/
def isHeaderWithDefault (p : Param) : Bool := isHeader p && parameterHasDefault p

/-- Models `ParameterHandler._should_skip_setting_param_value`. -/
def shouldSkipSettingParamValue (p : Param) (optional : Bool) : Bool :=
  if isHeaderWithDefault p then false
  else if !p.required && !optional then true
  else false

/-! ### Value synthesis (the mutually recursive pipeline)

Each function takes a fuel argument because `$ref` dereferencing can make
the Python recursion reenter arbitrary specification definitions.  Fuel is
consumed at every entry; running out is folded into the exceptional exit. -/

/-- The `Specification`'s definitions: `spec.deref` resolves a `$ref`
pointer string, failing like a dangling reference. -/
def Env : Type := List (String × PSpec)

/-- Models `self.spec.deref({'$ref': r})`. -/
def derefEnv (env : Env) (r : String) : Except Unit PSpec :=
  match List.lookup r env with
  | some s => .ok s
  | none => .error ()

/-- Result of a synthesis call: a returned value, a returned Python `None`,
or an exceptional exit (raised error, failed dereference, or exhausted
fuel in the model). -/
inductive Res : Type where
  | val : Value → Res
  | noneR : Res
  | err : Res

/-- The accumulator `_merge_all_parts` starts from:
`{'required': [], 'properties': {}, 'type': 'object'}`. -/
def mergedInit : PSpec :=
  .mk (some "object") none none none none none none none none none none none
      (some []) (some [])

/-- One iteration of the `_merge_all_parts` loop over a resolved part:
append its `required` entries, then write each of its `properties` into
the merged dict (last writer wins). -/
def mergeStep (merged od : PSpec) : PSpec :=
  let merged :=
    match od.required with
    | some rs => merged.withRequired (some (merged.required.getD [] ++ rs))
    | none => merged
  match od.properties with
  | some ps =>
      merged.withProperties
        (some (ps.foldl (fun acc kv => dictInsert acc kv.1 kv.2)
          (merged.properties.getD [])))
  | none => merged

mutual

/-- Models `ParameterHandler._get_param_value`: unwrap a `schema` wrapper, try the
primitive path, then the model path; `42` is the final default. -/
def getParamValue : Nat → Env → PSpec → Res
  | 0, _, _ => .err
  | fuel+1, env, s =>
    let s' := match s.schema with
      | some inner => inner
      | none => s
    match getParamValueForPrimitive fuel env s' with
    | .val v => .val v
    | .err => .err
    | .noneR =>
      match getParamValueForModel fuel env s' with
      | .val v => .val v
      | .err => .err
      | .noneR => .val (.vnum 42)
termination_by fuel env s => (fuel, 0, 0)

/-- Models `ParameterHandler._get_param_value_for_primitive`. -/
def getParamValueForPrimitive : Nat → Env → PSpec → Res
  | 0, _, _ => .err
  | fuel+1, env, s =>
    match getParameterType s with
    | none => .noneR
    | some t =>
      match getParamValueForTypeAndSpec t s with
      | some v => .val v
      | none => getParamValueForArray fuel env s
termination_by fuel env s => (fuel, 3, 0)

/-- Models `ParameterHandler._get_param_value_for_array`. -/
def getParamValueForArray : Nat → Env → PSpec → Res
  | 0, _, _ => .err
  | fuel+1, env, s =>
    if s.type ≠ some "array" then .noneR
    else
      match s.items with
      | none => .val (.vlist [])
      | some it =>
        match it.default with
        | some d => .val (.vlist [d])
        | none =>
          match getParamValue fuel env it with
          | .val v => .val (.vlist [v])
          | .noneR => .val (.vlist [])
          | .err => .err
termination_by fuel env s => (fuel, 2, 0)

/-- Models `ParameterHandler._get_param_value_for_model`: resolve the object
definition, create the object; a `None` object would raise
`NotImplementedError`. -/
def getParamValueForModel : Nat → Env → PSpec → Res
  | 0, _, _ => .err
  | fuel+1, env, s =>
    match getObjectDefinitionImpl fuel env s with
    | .error _ => .err
    | .ok d =>
      match createObject fuel env d with
      | .val v => .val v
      | .noneR => .err
      | .err => .err
termination_by fuel env s => (fuel, 5, 0)

/-- Models `ParameterHandler._get_object_definition_impl`: a single `$ref` hop,
then `allOf` merging, then `schema` unwrapping (with its own `$ref` hop). -/
def getObjectDefinitionImpl : Nat → Env → PSpec → Except Unit PSpec
  | 0, _, _ => .error ()
  | fuel+1, env, s => do
    let s1 ← match s.ref with
      | some r => derefEnv env r
      | none => pure s
    let s2 ← match s1.allOf with
      | some parts => mergeAllParts fuel env parts
      | none => pure s1
    match s2.schema with
    | some inner =>
      match inner.ref with
      | some r => derefEnv env r
      | none => pure inner
    | none => pure s2
termination_by fuel env s => (fuel, 1, 0)

/-- Models `ParameterHandler._merge_all_parts`. -/
def mergeAllParts : Nat → Env → List PSpec → Except Unit PSpec
  | 0, _, _ => .error ()
  | fuel+1, env, parts =>
    parts.foldlM (fun merged part => do
      let od ← getObjectDefinitionImpl fuel env part
      pure (mergeStep merged od)) mergedInit
termination_by fuel env parts => (fuel, 2, 0)

/-- Models `ParameterHandler._create_object`: `{}` unless the definition has
object type, else one synthesized value per declared property (a missing
`properties` key raises). -/
def createObject : Nat → Env → PSpec → Res
  | 0, _, _ => .err
  | fuel+1, env, s =>
    if s.type ≠ some "object" then .val (.vobj [])
    else
      match s.properties with
      | none => .err
      | some props => createObjectProps fuel env props []
termination_by fuel env s => (fuel, 4, 0)

/-- The `_create_object` property loop: inject the property name into the
nested spec when absent, synthesize, and store the result. -/
def createObjectProps : Nat → Env → List (String × PSpec) → List (String × Value) → Res
  | _, _, [], acc => .val (.vobj acc)
  | fuel, env, (pname, pdata) :: rest, acc =>
    let pdata := if pdata.name.isNone then pdata.withName (some pname) else pdata
    match getParamValue fuel env pdata with
    | .err => .err
    | .val v => createObjectProps fuel env rest (dictInsert acc pname v)
    | .noneR => createObjectProps fuel env rest (dictInsert acc pname .vnone)
termination_by fuel env props acc => (fuel, 3, props.length)

end

/-! ### Filling one parameter and expanding one operation -/

/-- Models `ParameterHandler._try_to_set_param_value`: a non-`None` author default
short-circuits everything; otherwise the synthesis pipeline runs and a
non-`None` result is written to `fill` (a raised error propagates). -/
def tryToSetParamValue (fuel : Nat) (env : Env) (p : Param) : Except Unit Param :=
  match p.default with
  | some d => .ok { p with fill := some d }
  | none =>
    match getParamValue fuel env p.paramSpec with
    | .val v => .ok { p with fill := some v }
    | .noneR => .ok p
    | .err => .error ()

/-- Models `operation.params[parameter_name].fill = value` on the ordered
parameter mapping. -/
def setParamFill (ps : List (String × Param)) (key : String) (v : Value) :
    List (String × Param) :=
  ps.map (fun np => if np.1 = key then (np.1, { np.2 with fill := some v }) else np)

/-- Models `ParameterHandler._set_custom_parameter_values`: no values — unchanged;
one value — overwrite the fill on every operation in place; several values
— one clone per (operation, value) pair, operations outermost. -/
def setCustomParameterValues (operations : List Operation) (parameterName : String)
    (values : List Value) : List Operation :=
  match values with
  | [] => operations
  | [v] =>
      operations.map (fun op => { op with params := setParamFill op.params parameterName v })
  | _ =>
      operations.flatMap (fun op =>
        values.map (fun v => { op with params := setParamFill op.params parameterName v }))

/-- The `_fix_string_format` sweep over an operation's parameters. -/
def fixStringFormatPass (ps : List (String × Param)) : List (String × Param) :=
  ps.map (fun np => (np.1, { np.2 with paramSpec := fixStringFormatSpec np.2.paramSpec }))

/-- The `_fix_string_with_invalid_format` sweep. -/
def fixStringWithInvalidFormatPass (ps : List (String × Param)) : List (String × Param) :=
  ps.map (fun np =>
    (np.1, { np.2 with paramSpec := fixStringWithInvalidFormatSpec np.2.paramSpec }))

/-- The `_fix_bad_default_for_number_type` sweep. -/
def fixBadDefaultForNumberTypePass (ps : List (String × Param)) : List (String × Param) :=
  ps.map (fun np =>
    (np.1, { np.2 with paramSpec := fixBadDefaultForNumberTypeSpec np.2.paramSpec }))

/-- Models `ParameterHandler._fix_common_spec_issues`: the three sweeps in source
order. -/
def fixCommonSpecIssues (ps : List (String × Param)) : List (String × Param) :=
  fixBadDefaultForNumberTypePass (fixStringWithInvalidFormatPass (fixStringFormatPass ps))

/-- One iteration of the filling loop in `set_operation_params`: ensure the
`fill` attribute exists (`parameter.fill = None`), apply the skip check,
and otherwise run `_try_to_set_param_value`. -/
def fillParamEntry (fuel : Nat) (env : Env) (optional : Bool) (np : String × Param) :
    Except Unit (String × Param) :=
  let p := { np.2 with fill := none }
  if shouldSkipSettingParamValue p optional then .ok (np.1, p)
  else
    match tryToSetParamValue fuel env p with
    | .ok p' => .ok (np.1, p')
    | .error e => .error e

/-- One iteration of the override loop in `set_operation_params`. -/
def applyCustomStep (store : Store) (path : String) (optional : Bool)
    (ops : List Operation) (np : String × Param) : List Operation :=
  if shouldSkipSettingParamValue np.2 optional then ops
  else
    let values := storeGet store path np.2.name
    if values.isEmpty then ops
    else setCustomParameterValues ops np.1 values

/-- The override-application loop at the end of `set_operation_params`:
fold over the filled clone's parameters in declared order; for each
non-skipped parameter with a non-empty override list, rebuild the running
operation list via `_set_custom_parameter_values`. -/
def applyCustomValues (store : Store) (optional : Bool) (operation : Operation) :
    List Operation :=
  operation.params.foldl (applyCustomStep store operation.pathName optional) [operation]

/-- Models `ParameterHandler.set_operation_params`: repair the specs, fill every
eligible parameter on a clone, then — when the caller supplied custom
values — expand into all combinations. -/
def setOperationParams (fuel : Nat) (env : Env) (optional : Bool) (store : Store)
    (op : Operation) : Except Unit (List Operation) := do
  let repaired : Operation := { op with params := fixCommonSpecIssues op.params }
  let filledParams ← repaired.params.mapM (fillParamEntry fuel env optional)
  let operation : Operation := { repaired with params := filledParams }
  if storeIsEmpty store then
    pure [operation]
  else
    pure (applyCustomValues store optional operation)

/-! ### Auxiliary measurement functions used by theorem statements -/

/-- The multiplicative contribution of one parameter to the final operation
count: its override-list size when the parameter is eligible (not skipped)
and overridden with a non-empty list, else `1`. -/
def overrideFactor (store : Store) (path : String) (optional : Bool)
    (np : String × Param) : Nat :=
  if shouldSkipSettingParamValue np.2 optional then 1
  else
    let values := storeGet store path np.2.name
    if values.isEmpty then 1 else values.length

/-- Last-writer-wins scan over the `properties` mappings of a list of
resolved `allOf` parts: the value recorded for key `k` after writing every
part's properties in order, starting from `init`. -/
def propScan (k : String) (ds : List PSpec) (init : Option PSpec) : Option PSpec :=
  ds.foldl (fun acc d =>
    (d.properties.getD []).foldl (fun a kv => if k = kv.1 then some kv.2 else a) acc) init

/-! ### Concrete instances used in the claim theorems -/

/-- The mapping `{'schema': {}}`: a schema wrapper whose inner mapping has no keys. -/
def wrappedEmptySpec : PSpec :=
  .mk none none none none none none none none none none (some .empty) none none none

/-- The mapping `{'type': 'array', 'format': 'int32'}`. -/
def arrayInt32Spec : PSpec :=
  .mk (some "array") (some "int32") none none none none none none none none none none none none

/-- The mapping `{'type': 'array'}`. -/
def bareArraySpec : PSpec :=
  .mk (some "array") none none none none none none none none none none none none none

/-- The mapping `{'type': 'string', 'default': 'x'}`. -/
def stringDefaultItemSpec : PSpec :=
  .mk (some "string") none none none none none none none (some (.vstr "x")) none none none none none

/-- The mapping `{'type': 'array', 'items': {'type': 'string', 'default': 'x'}}`. -/
def arrayWithDefaultItemsSpec : PSpec :=
  .mk (some "array") none none none none none none none none (some stringDefaultItemSpec)
    none none none none

/-- The mapping `{'type': 'integer'}`. -/
def integerSpec : PSpec :=
  .mk (some "integer") none none none none none none none none none none none none none

/-- The mapping `{'type': 'array', 'items': {'type': 'integer'}}`. -/
def arrayWithIntegerItemsSpec : PSpec :=
  .mk (some "array") none none none none none none none none (some integerSpec)
    none none none none

/-- The mapping `{'type': 'integer', 'enum': [7, 8], 'minimum': 1, 'maximum': 9,
'default': 3}`: an enum together with a range and a default. -/
def enumRangedSpec : PSpec :=
  .mk (some "integer") none none none none (some [.vnum 7, .vnum 8]) (some 1) (some 9)
    (some (.vnum 3)) none none none none none

/-- The mapping `{'type': 'integer', 'minimum': 3}`. -/
def rangedSpec : PSpec :=
  .mk (some "integer") none none none none none (some 3) none none none none none none none

/-- An optional header parameter whose spec carries a default. -/
def headerDefaultParam : Param :=
  { name := "X-Token", required := false, default := none,
    paramSpec := .mk (some "string") none (some "X-Token") (some "header") none none none
      none (some (.vstr "t")) none none none none none,
    fill := none }

/-- An ordinary optional parameter with an empty spec. -/
def plainOptionalParam : Param :=
  { name := "q", required := false, default := none, paramSpec := .empty, fill := none }

/-- A parameter with an author-supplied default. -/
def authorDefaultParam : Param :=
  { name := "d", required := true, default := some (.vstr "given"),
    paramSpec := integerSpec, fill := none }

/-- A required integer parameter named `n`. -/
def reqIntParam (n : String) : Param :=
  { name := n, required := true, default := none, paramSpec := integerSpec, fill := none }

/-- The operation of the cartesian-expansion example: three required
integer parameters `p1`, `p2`, `p3`. -/
def exampleOp : Operation :=
  { pathName := "/pets",
    params := [("p1", reqIntParam "p1"), ("p2", reqIntParam "p2"), ("p3", reqIntParam "p3")] }

/-- Overrides for the example: `p1 -> [a, b]`, `p2 -> [1, 2]`, nothing for
`p3`. -/
def exampleStore : Store :=
  storeSet (storeSet [] "/pets" "p1" [.vstr "a", .vstr "b"]) "/pets" "p2" [.vnum 1, .vnum 2]

/-- The example parameter `n` with fill value `v`. -/
def filledIntParam (n : String) (v : Value) : Param :=
  { name := n, required := true, default := none, paramSpec := integerSpec, fill := some v }

/-- An expected expansion result: `p1 = v1`, `p2 = v2`, `p3` keeps its
baseline fill `42`. -/
def expectedOp (v1 v2 : Value) : Operation :=
  { pathName := "/pets",
    params := [("p1", filledIntParam "p1" v1), ("p2", filledIntParam "p2" v2),
               ("p3", filledIntParam "p3" (.vnum 42))] }

/-- First `allOf` part: `{required: [a]}`. -/
def partASpec : PSpec :=
  .mk none none none none none none none none none none none none (some ["a"]) none

/-- Second `allOf` part: `{required: [b], properties: {x: {type: integer}}}`. -/
def partBSpec : PSpec :=
  .mk none none none none none none none none none none none none (some ["b"])
    (some [("x", integerSpec)])

/-- Expected merge of the two parts. -/
def mergedABSpec : PSpec :=
  .mk (some "object") none none none none none none none none none none none
    (some ["a", "b"]) (some [("x", integerSpec)])

/-! ## Helper lemmas -/

@[simp] theorem format_withFormat (s : PSpec) (f : Option String) :
    (s.withFormat f).format = f := by cases s; rfl

@[simp] theorem type_withFormat (s : PSpec) (f : Option String) :
    (s.withFormat f).type = s.type := by cases s; rfl

@[simp] theorem loc_withFormat (s : PSpec) (f : Option String) :
    (s.withFormat f).loc = s.loc := by cases s; rfl

@[simp] theorem enum_withFormat (s : PSpec) (f : Option String) :
    (s.withFormat f).enum = s.enum := by cases s; rfl

@[simp] theorem default_withFormat (s : PSpec) (f : Option String) :
    (s.withFormat f).default = s.default := by cases s; rfl

@[simp] theorem schema_withFormat (s : PSpec) (f : Option String) :
    (s.withFormat f).schema = s.schema := by cases s; rfl

@[simp] theorem format_withDefault (s : PSpec) (d : Option Value) :
    (s.withDefault d).format = s.format := by cases s; rfl

@[simp] theorem type_withDefault (s : PSpec) (d : Option Value) :
    (s.withDefault d).type = s.type := by cases s; rfl

@[simp] theorem loc_withDefault (s : PSpec) (d : Option Value) :
    (s.withDefault d).loc = s.loc := by cases s; rfl

@[simp] theorem enum_withDefault (s : PSpec) (d : Option Value) :
    (s.withDefault d).enum = s.enum := by cases s; rfl

@[simp] theorem default_withDefault (s : PSpec) (d : Option Value) :
    (s.withDefault d).default = d := by cases s; rfl

@[simp] theorem schema_withDefault (s : PSpec) (d : Option Value) :
    (s.withDefault d).schema = s.schema := by cases s; rfl

@[simp] theorem type_withRequired (s : PSpec) (rq : Option (List String)) :
    (s.withRequired rq).type = s.type := by cases s; rfl

@[simp] theorem required_withRequired (s : PSpec) (rq : Option (List String)) :
    (s.withRequired rq).required = rq := by cases s; rfl

@[simp] theorem properties_withRequired (s : PSpec) (rq : Option (List String)) :
    (s.withRequired rq).properties = s.properties := by cases s; rfl

@[simp] theorem type_withProperties (s : PSpec) (pr : Option (List (String × PSpec))) :
    (s.withProperties pr).type = s.type := by cases s; rfl

@[simp] theorem required_withProperties (s : PSpec) (pr : Option (List (String × PSpec))) :
    (s.withProperties pr).required = s.required := by cases s; rfl

@[simp] theorem properties_withProperties (s : PSpec) (pr : Option (List (String × PSpec))) :
    (s.withProperties pr).properties = pr := by cases s; rfl

/-- Looking up the key just written by `dictInsert` yields the new value;
any other key is unaffected. -/
theorem lookup_dictInsert {α : Type} (l : List (String × α)) (k k' : String) (v : α) :
    (dictInsert l k v).lookup k' = if k' = k then some v else l.lookup k' := by
  induction l with
  | nil =>
    by_cases h : k' = k
    · simp [dictInsert, List.lookup_cons, h]
    · simp [dictInsert, List.lookup_cons, beq_false_of_ne h, h]
  | cons hd tl ih =>
    obtain ⟨k₀, v₀⟩ := hd
    by_cases hk : k₀ = k
    · subst hk
      by_cases h : k' = k₀
      · simp [dictInsert, List.lookup_cons, h]
      · simp [dictInsert, List.lookup_cons, beq_false_of_ne h, h]
    · simp only [dictInsert, if_neg hk]
      by_cases h1 : k' = k₀ <;> by_cases h2 : k' = k
      · exact absurd (h1.symm.trans h2) hk
      · simp [List.lookup_cons, h1, h2, hk]
      · subst h2
        simp [List.lookup_cons, beq_false_of_ne (Ne.symm hk), ih]
      · simp [List.lookup_cons, beq_false_of_ne h1, h1, h2, hk, ih]

/-! ### Lemmas about the repair passes -/

theorem fixStringFormatSpec_fixed (s : PSpec) :
    ¬((fixStringFormatSpec s).format = some "string" ∧
      (fixStringFormatSpec s).type = some "string") := by
  unfold fixStringFormatSpec
  split
  · simp
  · assumption

theorem fixStringFormatSpec_id (s : PSpec)
    (h : ¬(s.format = some "string" ∧ s.type = some "string")) :
    fixStringFormatSpec s = s := by
  unfold fixStringFormatSpec
  rw [if_neg h]

theorem fixStringWithInvalidFormatSpec_fixed (s : PSpec) :
    ¬(((fixStringWithInvalidFormatSpec s).format = some "int32" ∨
       (fixStringWithInvalidFormatSpec s).format = some "int64" ∨
       (fixStringWithInvalidFormatSpec s).format = some "float" ∨
       (fixStringWithInvalidFormatSpec s).format = some "double" ∨
       (fixStringWithInvalidFormatSpec s).format = some "") ∧
      (fixStringWithInvalidFormatSpec s).type = some "string") := by
  unfold fixStringWithInvalidFormatSpec
  split
  · simp
  · assumption

theorem fixStringWithInvalidFormatSpec_id (s : PSpec)
    (h : ¬((s.format = some "int32" ∨ s.format = some "int64" ∨ s.format = some "float" ∨
            s.format = some "double" ∨ s.format = some "") ∧ s.type = some "string")) :
    fixStringWithInvalidFormatSpec s = s := by
  unfold fixStringWithInvalidFormatSpec
  rw [if_neg h]

theorem fixStringWithInvalidFormatSpec_notCond1 (s : PSpec)
    (h : ¬(s.format = some "string" ∧ s.type = some "string")) :
    ¬((fixStringWithInvalidFormatSpec s).format = some "string" ∧
      (fixStringWithInvalidFormatSpec s).type = some "string") := by
  unfold fixStringWithInvalidFormatSpec
  split
  · simp
  · exact h

theorem format_fixBadDefault (s : PSpec) :
    (fixBadDefaultForNumberTypeSpec s).format = s.format := by
  unfold fixBadDefaultForNumberTypeSpec
  split
  · split
    · split
      · rfl
      · simp
    · rfl
  · rfl

theorem type_fixBadDefault (s : PSpec) :
    (fixBadDefaultForNumberTypeSpec s).type = s.type := by
  unfold fixBadDefaultForNumberTypeSpec
  split
  · split
    · split
      · rfl
      · simp
    · rfl
  · rfl

/-- Models `_fix_bad_default_for_number_type` either leaves the spec alone or only
replaces its `default` with the integer `0`. -/
theorem fixBadDefault_cases (s : PSpec) :
    fixBadDefaultForNumberTypeSpec s = s ∨
    fixBadDefaultForNumberTypeSpec s = s.withDefault (some (.vnum 0)) := by
  unfold fixBadDefaultForNumberTypeSpec
  split
  · split
    · split
      · exact Or.inl rfl
      · exact Or.inr rfl
    · exact Or.inl rfl
  · exact Or.inl rfl

theorem fixBadDefault_id_of_num_default (s : PSpec) (hd : s.default = some (.vnum 0)) :
    fixBadDefaultForNumberTypeSpec s = s := by
  unfold fixBadDefaultForNumberTypeSpec
  split
  · simp only [hd]
  · rfl

theorem fixBadDefault_idem (s : PSpec) :
    fixBadDefaultForNumberTypeSpec (fixBadDefaultForNumberTypeSpec s) =
      fixBadDefaultForNumberTypeSpec s := by
  rcases fixBadDefault_cases s with h | h
  · rw [h, h]
  · rw [h]
    exact fixBadDefault_id_of_num_default _ (by simp)

/-- The three repair passes composed are idempotent on one spec. -/
theorem fixSpec_idem (s : PSpec) : fixSpec (fixSpec s) = fixSpec s := by
  have hc1 : ¬((fixSpec s).format = some "string" ∧ (fixSpec s).type = some "string") := by
    unfold fixSpec
    rw [show ∀ x : PSpec, ((fixBadDefaultForNumberTypeSpec x).format = some "string" ∧
          (fixBadDefaultForNumberTypeSpec x).type = some "string") ↔
          (x.format = some "string" ∧ x.type = some "string") from
        fun x => by rw [format_fixBadDefault, type_fixBadDefault]]
    exact fixStringWithInvalidFormatSpec_notCond1 _ (fixStringFormatSpec_fixed s)
  have hc2 : ¬(((fixSpec s).format = some "int32" ∨ (fixSpec s).format = some "int64" ∨
        (fixSpec s).format = some "float" ∨ (fixSpec s).format = some "double" ∨
        (fixSpec s).format = some "") ∧ (fixSpec s).type = some "string") := by
    unfold fixSpec
    rw [show ∀ x : PSpec, (((fixBadDefaultForNumberTypeSpec x).format = some "int32" ∨
          (fixBadDefaultForNumberTypeSpec x).format = some "int64" ∨
          (fixBadDefaultForNumberTypeSpec x).format = some "float" ∨
          (fixBadDefaultForNumberTypeSpec x).format = some "double" ∨
          (fixBadDefaultForNumberTypeSpec x).format = some "") ∧
          (fixBadDefaultForNumberTypeSpec x).type = some "string") ↔
          ((x.format = some "int32" ∨ x.format = some "int64" ∨ x.format = some "float" ∨
            x.format = some "double" ∨ x.format = some "") ∧ x.type = some "string") from
        fun x => by rw [format_fixBadDefault, type_fixBadDefault]]
    exact fixStringWithInvalidFormatSpec_fixed _
  show fixBadDefaultForNumberTypeSpec (fixStringWithInvalidFormatSpec
      (fixStringFormatSpec (fixSpec s))) = fixSpec s
  rw [fixStringFormatSpec_id _ hc1, fixStringWithInvalidFormatSpec_id _ hc2]
  show fixBadDefaultForNumberTypeSpec (fixBadDefaultForNumberTypeSpec
      (fixStringWithInvalidFormatSpec (fixStringFormatSpec s))) = fixSpec s
  rw [fixBadDefault_idem]
  rfl

/-- The three sweeps of `_fix_common_spec_issues` compose to the pointwise
per-parameter repair. -/
theorem fixCommonSpecIssues_eq_map (ps : List (String × Param)) :
    fixCommonSpecIssues ps =
      ps.map (fun np => (np.1, { np.2 with paramSpec := fixSpec np.2.paramSpec })) := by
  unfold fixCommonSpecIssues fixBadDefaultForNumberTypePass
    fixStringWithInvalidFormatPass fixStringFormatPass
  rw [List.map_map, List.map_map]
  rfl

/-! ### Invariance of the skip decision under repair and filling -/

theorem enum_fixStringFormatSpec (s : PSpec) : (fixStringFormatSpec s).enum = s.enum := by
  unfold fixStringFormatSpec
  split
  · simp
  · rfl

theorem loc_fixStringFormatSpec (s : PSpec) : (fixStringFormatSpec s).loc = s.loc := by
  unfold fixStringFormatSpec
  split
  · simp
  · rfl

theorem schema_fixStringFormatSpec (s : PSpec) :
    (fixStringFormatSpec s).schema = s.schema := by
  unfold fixStringFormatSpec
  split
  · simp
  · rfl

theorem default_fixStringFormatSpec (s : PSpec) :
    (fixStringFormatSpec s).default = s.default := by
  unfold fixStringFormatSpec
  split
  · simp
  · rfl

theorem enum_fixStringWithInvalidFormatSpec (s : PSpec) :
    (fixStringWithInvalidFormatSpec s).enum = s.enum := by
  unfold fixStringWithInvalidFormatSpec
  split
  · simp
  · rfl

theorem loc_fixStringWithInvalidFormatSpec (s : PSpec) :
    (fixStringWithInvalidFormatSpec s).loc = s.loc := by
  unfold fixStringWithInvalidFormatSpec
  split
  · simp
  · rfl

theorem schema_fixStringWithInvalidFormatSpec (s : PSpec) :
    (fixStringWithInvalidFormatSpec s).schema = s.schema := by
  unfold fixStringWithInvalidFormatSpec
  split
  · simp
  · rfl

theorem default_fixStringWithInvalidFormatSpec (s : PSpec) :
    (fixStringWithInvalidFormatSpec s).default = s.default := by
  unfold fixStringWithInvalidFormatSpec
  split
  · simp
  · rfl

theorem enum_fixBadDefault (s : PSpec) :
    (fixBadDefaultForNumberTypeSpec s).enum = s.enum := by
  unfold fixBadDefaultForNumberTypeSpec
  split
  · split
    · split
      · rfl
      · simp
    · rfl
  · rfl

theorem loc_fixBadDefault (s : PSpec) :
    (fixBadDefaultForNumberTypeSpec s).loc = s.loc := by
  unfold fixBadDefaultForNumberTypeSpec
  split
  · split
    · split
      · rfl
      · simp
    · rfl
  · rfl

theorem schema_fixBadDefault (s : PSpec) :
    (fixBadDefaultForNumberTypeSpec s).schema = s.schema := by
  unfold fixBadDefaultForNumberTypeSpec
  split
  · split
    · split
      · rfl
      · simp
    · rfl
  · rfl

theorem isSome_default_fixBadDefault (s : PSpec) :
    (fixBadDefaultForNumberTypeSpec s).default.isSome = s.default.isSome := by
  unfold fixBadDefaultForNumberTypeSpec
  split
  · split
    · split
      · rfl
      · simp_all
    · rfl
  · rfl

theorem enum_fixSpec (s : PSpec) : (fixSpec s).enum = s.enum := by
  unfold fixSpec
  rw [enum_fixBadDefault, enum_fixStringWithInvalidFormatSpec, enum_fixStringFormatSpec]

theorem loc_fixSpec (s : PSpec) : (fixSpec s).loc = s.loc := by
  unfold fixSpec
  rw [loc_fixBadDefault, loc_fixStringWithInvalidFormatSpec, loc_fixStringFormatSpec]

theorem schema_fixSpec (s : PSpec) : (fixSpec s).schema = s.schema := by
  unfold fixSpec
  rw [schema_fixBadDefault, schema_fixStringWithInvalidFormatSpec, schema_fixStringFormatSpec]

theorem isSome_default_fixSpec (s : PSpec) :
    (fixSpec s).default.isSome = s.default.isSome := by
  unfold fixSpec
  rw [isSome_default_fixBadDefault, default_fixStringWithInvalidFormatSpec,
    default_fixStringFormatSpec]

theorem specHasDefault_fixSpec (s : PSpec) :
    specHasDefault (fixSpec s) = specHasDefault s := by
  unfold specHasDefault
  rw [isSome_default_fixSpec, enum_fixSpec]

/-- Repairing a parameter's spec does not change the skip decision: the
repairs only delete a `format` key or replace the `default` value with `0`,
neither of which affects `in`, `required`, default presence or `enum`. -/
theorem shouldSkip_fixSpec (p : Param) (optional : Bool) :
    shouldSkipSettingParamValue { p with paramSpec := fixSpec p.paramSpec } optional =
      shouldSkipSettingParamValue p optional := by
  unfold shouldSkipSettingParamValue isHeaderWithDefault isHeader parameterHasDefault
  simp only [loc_fixSpec, specHasDefault_fixSpec, schema_fixSpec]

/-- Filling (or resetting) the `fill` attribute does not change the skip
decision either. -/
theorem shouldSkip_congr (p q : Param) (optional : Bool)
    (hspec : q.paramSpec = p.paramSpec) (hreq : q.required = p.required) :
    shouldSkipSettingParamValue q optional = shouldSkipSettingParamValue p optional := by
  unfold shouldSkipSettingParamValue isHeaderWithDefault isHeader parameterHasDefault
  rw [hspec, hreq]

/-! ## Claim theorems -/

/-- C9: the spec repairer is idempotent — applying `_fix_common_spec_issues`
(drop `format=string` on strings, drop numeric-family formats on strings,
coerce non-all-digits string defaults of numeric-format parameters to `0`)
twice to an operation's parameters equals applying it once.  The repairer
is a total function in the embedding, mirroring that the source code's
passes cannot raise. -/
theorem c9_repair_idempotent (ps : List (String × Param)) :
    fixCommonSpecIssues (fixCommonSpecIssues ps) = fixCommonSpecIssues ps := by
  rw [fixCommonSpecIssues_eq_map, fixCommonSpecIssues_eq_map, List.map_map]
  refine List.map_congr_left fun np _ => ?_
  obtain ⟨n, p⟩ := np
  cases p
  simp [fixSpec_idem]

/-- C3: a header parameter whose spec carries a default or a non-empty enum
(directly or in its `schema` sub-spec) is never skipped, even when it is
optional and `optional=false`; every other optional parameter is skipped
when `optional=false`. -/
theorem c3_header_default_fill_rule :
    (∀ p : Param, isHeader p = true → parameterHasDefault p = true →
        shouldSkipSettingParamValue p false = false) ∧
    (∀ p : Param, isHeaderWithDefault p = false → p.required = false →
        shouldSkipSettingParamValue p false = true) := by
  constructor
  · intro p h1 h2
    unfold shouldSkipSettingParamValue isHeaderWithDefault
    rw [h1, h2]
    rfl
  · intro p h1 h2
    unfold shouldSkipSettingParamValue
    rw [h1, h2]
    rfl

/-- Witness for C3: the optional header-with-default is not skipped, the
plain optional parameter is. -/
theorem c3_witness :
    shouldSkipSettingParamValue headerDefaultParam false = false ∧
    shouldSkipSettingParamValue plainOptionalParam false = true :=
  ⟨c3_header_default_fill_rule.1 headerDefaultParam rfl rfl,
   c3_header_default_fill_rule.2 plainOptionalParam rfl rfl⟩

/-- C5: a non-empty `enum` makes `_get_param_value_for_type_and_spec`
return the first listed entry, for every classified type, before the
ranged-numeric branch and the fixed value table are consulted. -/
theorem c5_enum_first_entry (t : String) (s : PSpec) (v : Value) (rest : List Value)
    (h : s.enum = some (v :: rest)) :
    getParamValueForTypeAndSpec t s = some v := by
  unfold getParamValueForTypeAndSpec
  rw [h]

/-- Witness for C5 at a spec that also carries a range and a default:
the first enum entry still wins. -/
theorem c5_witness : getParamValueForTypeAndSpec "integer" enumRangedSpec = some (.vnum 7) :=
  c5_enum_first_entry "integer" enumRangedSpec (.vnum 7) [.vnum 8] rfl

/-- C7: value synthesis is a pure function of the parameter spec in this
embedding (same spec, same result on every call — mirroring the freshly
seeded generator in the source), and on the ranged-numeric path the result
is exactly the fixed-seed (seed = 1) generator output over the inclusive
range `[minimum or 0, maximum or 56]`, so it depends on nothing but the
spec's range fields. -/
theorem c7_deterministic_ranged_numeric :
    (∀ (fuel : Nat) (env : Env) (s : PSpec),
        getParamValue fuel env s = getParamValue fuel env s) ∧
    (∀ (t : String) (s : PSpec),
        (t = "integer" ∨ t = "float" ∨ t = "double" ∨ t = "int32" ∨ t = "int64") →
        (s.enum = none ∨ s.enum = some []) →
        (s.maximum.isSome ∨ s.minimum.isSome) →
        getParamValueForTypeAndSpec t s =
          some (.vrandint 1 (s.minimum.getD 0) (s.maximum.getD 56))) := by
  constructor
  · intro fuel env s
    rfl
  · intro t s ht he hr
    unfold getParamValueForTypeAndSpec
    rcases he with he | he <;> rw [he] <;> rw [if_pos ⟨ht, hr⟩]

/-- Witness for C7: `{'type': 'integer', 'minimum': 3}` synthesizes the
seed-1 generator value over `[3, 56]`. -/
theorem c7_witness :
    getParamValueForTypeAndSpec "integer" rangedSpec = some (.vrandint 1 3 56) :=
  c7_deterministic_ranged_numeric.2 "integer" rangedSpec (Or.inl rfl) (Or.inl rfl)
    (Or.inr rfl)

/-- C8: a non-`None` author default short-circuits the entire synthesis
pipeline: the fill equals the default for every spec and even with zero
fuel, so the pipeline is never invoked. -/
theorem c8_author_default_short_circuit (fuel : Nat) (env : Env) (p : Param) (d : Value)
    (h : p.default = some d) :
    tryToSetParamValue fuel env p = .ok { p with fill := some d } := by
  unfold tryToSetParamValue
  rw [h]

/-- Witness for C8: the author default fills the parameter with zero fuel. -/
theorem c8_witness :
    tryToSetParamValue 0 [] authorDefaultParam =
      .ok { authorDefaultParam with fill := some (.vstr "given") } :=
  c8_author_default_short_circuit 0 [] authorDefaultParam (.vstr "given") rfl

/-- C10: when a spec carries both `format` and `type`,
`_get_parameter_type` classifies by the `format` alone, so
`{'type': 'array', 'format': 'int32'}` synthesizes the scalar `42` from the
fixed value table rather than a sequence. -/
theorem c10_format_overrides_type :
    (∀ (s : PSpec) (f : String), s.format = some f → getParameterType s = some f) ∧
    (∀ fuel : Nat, getParamValue (fuel+2) [] arrayInt32Spec = .val (.vnum 42)) := by
  constructor
  · intro s f h
    unfold getParameterType
    rw [h]
  · intro fuel
    simp [getParamValue, getParamValueForPrimitive, getParamValueForTypeAndSpec,
          getParameterType, defaultValuesByType, arrayInt32Spec, PSpec.schema,
          PSpec.format, PSpec.type, PSpec.enum, PSpec.minimum, PSpec.maximum, PSpec.name]

/-- Witness for C10. -/
theorem c10_witness :
    getParameterType arrayInt32Spec = some "int32" ∧
    getParamValue 2 [] arrayInt32Spec = .val (.vnum 42) :=
  ⟨c10_format_overrides_type.1 arrayInt32Spec "int32" rfl,
   c10_format_overrides_type.2 0⟩

/-- C2 as stated is false on the code: for `{'schema': {}}` — a schema
wrapper whose unwrapped inner mapping has no type/format and no properties
— `_get_param_value` returns the empty object `{}` produced by
`_create_object`, not the constant `42`: `_get_param_value_for_model`
always returns a dict (possibly empty), which is not `None`, so the
`return 42` line is never reached. -/
theorem c2_counterexample :
    getParamValue 3 [] wrappedEmptySpec = .val (.vobj []) ∧
      Value.vobj [] ≠ Value.vnum 42 := by
  constructor
  · simp [getParamValue, getParamValueForPrimitive, getParamValueForModel,
          getObjectDefinitionImpl, createObject, getParameterType,
          wrappedEmptySpec, PSpec.empty, PSpec.schema, PSpec.format, PSpec.type,
          PSpec.ref, PSpec.allOf, PSpec.properties, pure, Except.pure, bind, Except.bind]
  · intro h
    exact Value.noConfusion h

/-- C2 amended: for every parameter spec that, after unwrapping a schema
wrapper, still has no recognizable type/format, no reference, no composite,
no nested wrapper and no object properties, the value-synthesis pipeline
returns the empty object `{}` as an absolute fallback (the constant-42
branch is unreachable). -/
theorem c2_amended_empty_object_fallback (fuel : Nat) (env : Env) (s inner : PSpec)
    (hs : s.schema = some inner) (hf : inner.format = none) (ht : inner.type = none)
    (hr : inner.ref = none) (ha : inner.allOf = none) (hsch : inner.schema = none)
    (hp : inner.properties = none) :
    getParamValue (fuel+3) env s = .val (.vobj []) := by
  simp [getParamValue, getParamValueForPrimitive, getParamValueForModel,
        getObjectDefinitionImpl, createObject, getParameterType,
        hs, hf, ht, hr, ha, hsch, hp, pure, Except.pure, bind, Except.bind]

/-- Witness for the amended C2. -/
theorem c2_amended_witness : getParamValue 3 [] wrappedEmptySpec = .val (.vobj []) :=
  c2_amended_empty_object_fallback 0 [] wrappedEmptySpec PSpec.empty rfl rfl rfl rfl rfl
    rfl rfl

/-- C4: the array laws of `_get_param_value_for_array` — missing `items`
gives the empty sequence; an `items` default gives a one-element sequence
with that default; otherwise a single recursively synthesized item is
wrapped as a one-element sequence (the empty sequence when recursion yields
`None`); and an array synthesized here never has more than one element. -/
theorem c4_array_laws :
    (∀ (fuel : Nat) (env : Env) (s : PSpec),
        s.type = some "array" → s.items = none →
        getParamValueForArray (fuel+1) env s = .val (.vlist [])) ∧
    (∀ (fuel : Nat) (env : Env) (s it : PSpec) (d : Value),
        s.type = some "array" → s.items = some it → it.default = some d →
        getParamValueForArray (fuel+1) env s = .val (.vlist [d])) ∧
    (∀ (fuel : Nat) (env : Env) (s it : PSpec) (v : Value),
        s.type = some "array" → s.items = some it → it.default = none →
        getParamValue fuel env it = .val v →
        getParamValueForArray (fuel+1) env s = .val (.vlist [v])) ∧
    (∀ (fuel : Nat) (env : Env) (s it : PSpec),
        s.type = some "array" → s.items = some it → it.default = none →
        getParamValue fuel env it = .noneR →
        getParamValueForArray (fuel+1) env s = .val (.vlist [])) ∧
    (∀ (fuel : Nat) (env : Env) (s : PSpec) (l : List Value),
        getParamValueForArray fuel env s = .val (.vlist l) → l.length ≤ 1) := by
  refine ⟨?_, ?_, ?_, ?_, ?_⟩
  · intro fuel env s h1 h2
    simp [getParamValueForArray, h1, h2]
  · intro fuel env s it d h1 h2 h3
    simp [getParamValueForArray, h1, h2, h3]
  · intro fuel env s it v h1 h2 h3 h4
    simp [getParamValueForArray, h1, h2, h3, h4]
  · intro fuel env s it h1 h2 h3 h4
    simp [getParamValueForArray, h1, h2, h3, h4]
  · intro fuel env s l h
    cases fuel with
    | zero => simp [getParamValueForArray] at h
    | succ n =>
      simp only [getParamValueForArray] at h
      split at h
      · simp at h
      · split at h
        · simp only [Res.val.injEq, Value.vlist.injEq] at h
          subst h
          simp
        · split at h
          · simp only [Res.val.injEq, Value.vlist.injEq] at h
            subst h
            simp
          · split at h
            · simp only [Res.val.injEq, Value.vlist.injEq] at h
              subst h
              simp
            · simp only [Res.val.injEq, Value.vlist.injEq] at h
              subst h
              simp
            · simp at h

/-- Witness for C4: the three array laws at the spec's example specs, and
the one-element bound at the third result. -/
theorem c4_witness :
    getParamValueForArray 1 [] bareArraySpec = .val (.vlist []) ∧
    getParamValueForArray 1 [] arrayWithDefaultItemsSpec = .val (.vlist [.vstr "x"]) ∧
    getParamValueForArray 3 [] arrayWithIntegerItemsSpec = .val (.vlist [.vnum 42]) ∧
    [Value.vnum 42].length ≤ 1 :=
  ⟨c4_array_laws.1 0 [] bareArraySpec rfl rfl,
   c4_array_laws.2.1 0 [] arrayWithDefaultItemsSpec stringDefaultItemSpec (.vstr "x")
     rfl rfl rfl,
   c4_array_laws.2.2.1 2 [] arrayWithIntegerItemsSpec integerSpec (.vnum 42) rfl rfl rfl
     (by simp [getParamValue, getParamValueForPrimitive, getParamValueForTypeAndSpec,
           getParameterType, defaultValuesByType, integerSpec, PSpec.schema, PSpec.format,
           PSpec.type, PSpec.enum, PSpec.minimum, PSpec.maximum, PSpec.name]),
   c4_array_laws.2.2.2.2 3 [] arrayWithIntegerItemsSpec [Value.vnum 42]
     (c4_array_laws.2.2.1 2 [] arrayWithIntegerItemsSpec integerSpec (.vnum 42) rfl rfl rfl
       (by simp [getParamValue, getParamValueForPrimitive, getParamValueForTypeAndSpec,
             getParameterType, defaultValuesByType, integerSpec, PSpec.schema, PSpec.format,
             PSpec.type, PSpec.enum, PSpec.minimum, PSpec.maximum, PSpec.name]))⟩

/-! ### Lemmas about `_merge_all_parts` -/

theorem type_mergeStep (a od : PSpec) : (mergeStep a od).type = a.type := by
  cases hr : od.required <;> cases hp : od.properties <;> simp [mergeStep, hr, hp]

theorem required_mergeStep (a od : PSpec) (r0 : List String) (h : a.required = some r0) :
    (mergeStep a od).required = some (r0 ++ od.required.getD []) := by
  cases hr : od.required <;> cases hp : od.properties <;> simp [mergeStep, hr, hp, h]

theorem lookup_foldl_dictInsert {α : Type} (k : String) (ps : List (String × α)) :
    ∀ acc : List (String × α),
      (ps.foldl (fun a kv => dictInsert a kv.1 kv.2) acc).lookup k
        = ps.foldl (fun r kv => if k = kv.1 then some kv.2 else r) (acc.lookup k) := by
  induction ps with
  | nil => intro acc; rfl
  | cons kv ps ih =>
    intro acc
    simp only [List.foldl_cons]
    rw [ih, lookup_dictInsert]

theorem properties_mergeStep (a od : PSpec) (l : List (String × PSpec))
    (h : a.properties = some l) :
    ∃ l', (mergeStep a od).properties = some l' ∧
      ∀ k, l'.lookup k = (od.properties.getD []).foldl
          (fun r kv => if k = kv.1 then some kv.2 else r) (l.lookup k) := by
  cases hr : od.required <;> cases hp : od.properties
  · exact ⟨l, by simp [mergeStep, hr, hp, h], fun k => by simp [hp]⟩
  case none.some ps =>
    refine ⟨ps.foldl (fun a kv => dictInsert a kv.1 kv.2) l, ?_, ?_⟩
    · simp [mergeStep, hr, hp, h]
    · intro k
      rw [lookup_foldl_dictInsert]
      simp [hp]
  · exact ⟨l, by simp [mergeStep, hr, hp, h], fun k => by simp [hp]⟩
  case some.some rs ps =>
    refine ⟨ps.foldl (fun a kv => dictInsert a kv.1 kv.2) l, ?_, ?_⟩
    · simp [mergeStep, hr, hp, h]
    · intro k
      rw [lookup_foldl_dictInsert]
      simp [hp]

theorem foldl_mergeStep_spec (ds : List PSpec) :
    ∀ (acc : PSpec) (r0 : List String) (l : List (String × PSpec)),
      acc.required = some r0 → acc.properties = some l →
      (ds.foldl mergeStep acc).type = acc.type ∧
      (ds.foldl mergeStep acc).required
          = some (r0 ++ ds.flatMap (fun d => d.required.getD [])) ∧
      ∃ l', (ds.foldl mergeStep acc).properties = some l' ∧
        ∀ k, l'.lookup k = propScan k ds (l.lookup k) := by
  induction ds with
  | nil =>
    intro acc r0 l h1 h2
    exact ⟨rfl, by simp [h1], l, h2, fun k => rfl⟩
  | cons d ds ih =>
    intro acc r0 l h1 h2
    simp only [List.foldl_cons]
    obtain ⟨l₁, hl₁, hlk⟩ := properties_mergeStep acc d l h2
    obtain ⟨ht, hr, l', hl', hk⟩ := ih (mergeStep acc d) (r0 ++ d.required.getD []) l₁
        (required_mergeStep acc d r0 h1) hl₁
    refine ⟨?_, ?_, l', hl', ?_⟩
    · rw [ht, type_mergeStep]
    · rw [hr]
      simp
    · intro k
      rw [hk k, hlk k]
      rfl

theorem foldlM_mergeStep_ok (fuel : Nat) (env : Env) (parts : List PSpec) :
    ∀ (ds : List PSpec) (acc : PSpec),
      parts.mapM (getObjectDefinitionImpl fuel env) = .ok ds →
      (parts.foldlM (fun merged part => do
          let od ← getObjectDefinitionImpl fuel env part
          pure (mergeStep merged od)) acc) = .ok (ds.foldl mergeStep acc) := by
  induction parts with
  | nil =>
    intro ds acc h
    rw [List.mapM_nil] at h
    cases h
    rfl
  | cons p parts ih =>
    intro ds acc h
    rw [List.mapM_cons] at h
    cases him : getObjectDefinitionImpl fuel env p with
    | error e =>
      rw [him] at h
      simp [bind, Except.bind] at h
    | ok d =>
      rw [him] at h
      cases hds : parts.mapM (getObjectDefinitionImpl fuel env) with
      | error e =>
        rw [hds] at h
        simp [bind, Except.bind] at h
      | ok ds' =>
        rw [hds] at h
        simp only [bind, Except.bind, pure, Except.pure, Except.ok.injEq] at h
        subst h
        rw [List.foldlM_cons, him]
        simp only [bind, Except.bind, pure, Except.pure]
        exact ih ds' (mergeStep acc d) hds

/-- C6: `_merge_all_parts` merges resolved `allOf` members in order into a
single definition: the `required` lists are concatenated in order
(duplicates allowed), the `properties` mappings are merged with
last-writer-wins on name collision, and the result always reports object
type; concretely, `allOf = [{required: [a]}, {required: [b],
properties: {x: {type: integer}}}]` merges to `required = [a, b]` and
`properties = {x: {type: integer}}`. -/
theorem c6_allOf_merge :
    (∀ (fuel : Nat) (env : Env) (parts ds : List PSpec),
        parts.mapM (getObjectDefinitionImpl fuel env) = .ok ds →
        ∃ m : PSpec, mergeAllParts (fuel+1) env parts = .ok m ∧
          m.type = some "object" ∧
          m.required = some (ds.flatMap (fun d => d.required.getD [])) ∧
          ∃ props, m.properties = some props ∧
            ∀ k, props.lookup k = propScan k ds none) ∧
    mergeAllParts 2 [] [partASpec, partBSpec] = .ok mergedABSpec := by
  constructor
  · intro fuel env parts ds h
    refine ⟨ds.foldl mergeStep mergedInit, ?_, ?_⟩
    · simp only [mergeAllParts]
      exact foldlM_mergeStep_ok fuel env parts ds mergedInit h
    · obtain ⟨ht, hr, l', hl', hk⟩ :=
        foldl_mergeStep_spec ds mergedInit [] [] rfl rfl
      exact ⟨ht, by simpa using hr, l', hl', fun k => hk k⟩
  · simp [mergeAllParts, getObjectDefinitionImpl, mergeStep, mergedInit, dictInsert,
      partASpec, partBSpec, mergedABSpec, PSpec.ref, PSpec.allOf, PSpec.schema,
      PSpec.required, PSpec.properties, PSpec.withRequired, PSpec.withProperties,
      pure, Except.pure, bind, Except.bind]

/-- Witness for C6 discharging the resolution hypothesis at the concrete
parts. -/
theorem c6_witness :
    ∃ m : PSpec, mergeAllParts 2 [] [partASpec, partBSpec] = .ok m ∧
      m.type = some "object" ∧
      m.required = some ["a", "b"] ∧
      ∃ props, m.properties = some props ∧
        ∀ k, props.lookup k = propScan k [partASpec, partBSpec] none := by
  obtain ⟨m, h1, h2, h3, props, h4, h5⟩ :=
    c6_allOf_merge.1 1 [] [partASpec, partBSpec] [partASpec, partBSpec]
      (by simp [List.mapM, List.mapM.loop, getObjectDefinitionImpl,
        partASpec, partBSpec, PSpec.ref, PSpec.allOf, PSpec.schema,
        pure, Except.pure, bind, Except.bind])
  exact ⟨m, h1, h2, by simpa [partASpec, partBSpec, PSpec.required] using h3, props, h4, h5⟩

/-! ### Lemmas about the expansion loop -/

theorem setCustomParameterValues_length (ops : List Operation) (n : String)
    (vs : List Value) (h : vs ≠ []) :
    (setCustomParameterValues ops n vs).length = ops.length * vs.length := by
  cases vs with
  | nil => exact absurd rfl h
  | cons v1 tail =>
    cases tail with
    | nil => simp [setCustomParameterValues]
    | cons v2 rest =>
      induction ops with
      | nil => simp [setCustomParameterValues]
      | cons o os ih =>
        simp only [setCustomParameterValues] at ih ⊢
        simp only [List.flatMap_cons, List.length_append, List.length_map, ih,
          List.length_cons]
        ring

theorem applyCustomStep_length (store : Store) (path : String) (optional : Bool)
    (ops : List Operation) (np : String × Param) :
    (applyCustomStep store path optional ops np).length
      = ops.length * overrideFactor store path optional np := by
  unfold applyCustomStep overrideFactor
  by_cases h1 : shouldSkipSettingParamValue np.2 optional = true
  · simp [h1]
  · simp only [Bool.not_eq_true] at h1
    simp only [h1, Bool.false_eq_true, if_false]
    by_cases h2 : (storeGet store path np.2.name).isEmpty = true
    · simp [h2]
    · simp only [Bool.not_eq_true] at h2
      simp only [h2, Bool.false_eq_true, if_false]
      rw [setCustomParameterValues_length]
      intro hnil
      rw [hnil] at h2
      simp at h2

theorem foldl_applyCustomStep_length (store : Store) (path : String) (optional : Bool)
    (ps : List (String × Param)) :
    ∀ ops : List Operation,
      (ps.foldl (applyCustomStep store path optional) ops).length
        = ops.length * (ps.map (overrideFactor store path optional)).prod := by
  induction ps with
  | nil => intro ops; simp
  | cons np rest ih =>
    intro ops
    simp only [List.foldl_cons, List.map_cons, List.prod_cons]
    rw [ih, applyCustomStep_length]
    ring

theorem tryToSetParamValue_preserves (fuel : Nat) (env : Env) (p q : Param)
    (h : tryToSetParamValue fuel env p = .ok q) :
    q.name = p.name ∧ q.required = p.required ∧ q.paramSpec = p.paramSpec := by
  unfold tryToSetParamValue at h
  cases hd : p.default with
  | some d =>
    rw [hd] at h
    cases h
    exact ⟨rfl, rfl, rfl⟩
  | none =>
    rw [hd] at h
    cases hv : getParamValue fuel env p.paramSpec with
    | val v =>
      rw [hv] at h
      cases h
      exact ⟨rfl, rfl, rfl⟩
    | noneR =>
      rw [hv] at h
      cases h
      exact ⟨rfl, rfl, rfl⟩
    | err =>
      rw [hv] at h
      cases h

theorem fillParamEntry_preserves (fuel : Nat) (env : Env) (optional : Bool)
    (np np' : String × Param) (h : fillParamEntry fuel env optional np = .ok np') :
    np'.1 = np.1 ∧ np'.2.name = np.2.name ∧ np'.2.required = np.2.required ∧
      np'.2.paramSpec = np.2.paramSpec := by
  unfold fillParamEntry at h
  by_cases hs : shouldSkipSettingParamValue { np.2 with fill := none } optional = true
  · simp only [hs, if_true] at h
    cases h
    exact ⟨rfl, rfl, rfl, rfl⟩
  · simp only [Bool.not_eq_true] at hs
    simp only [hs, Bool.false_eq_true, if_false] at h
    cases htr : tryToSetParamValue fuel env { np.2 with fill := none } with
    | ok p' =>
      rw [htr] at h
      cases h
      obtain ⟨h1, h2, h3⟩ := tryToSetParamValue_preserves fuel env _ p' htr
      exact ⟨rfl, h1, h2, h3⟩
    | error e =>
      rw [htr] at h
      cases h

theorem mapM_fillParamEntry_factors (fuel : Nat) (env : Env) (optional : Bool)
    (store : Store) (path : String) (xs : List (String × Param)) :
    ∀ ys, xs.mapM (fillParamEntry fuel env optional) = .ok ys →
      ys.map (overrideFactor store path optional)
        = xs.map (overrideFactor store path optional) := by
  induction xs with
  | nil =>
    intro ys h
    rw [List.mapM_nil] at h
    cases h
    rfl
  | cons x xs ih =>
    intro ys h
    rw [List.mapM_cons] at h
    cases hx : fillParamEntry fuel env optional x with
    | error e =>
      rw [hx] at h
      simp [bind, Except.bind] at h
    | ok y =>
      rw [hx] at h
      cases hxs : xs.mapM (fillParamEntry fuel env optional) with
      | error e =>
        rw [hxs] at h
        simp [bind, Except.bind] at h
      | ok ys' =>
        rw [hxs] at h
        simp only [bind, Except.bind, pure, Except.pure, Except.ok.injEq] at h
        subst h
        simp only [List.map_cons]
        obtain ⟨e1, e2, e3, e4⟩ := fillParamEntry_preserves fuel env optional x y hx
        rw [ih ys' hxs]
        have hfac : overrideFactor store path optional y
            = overrideFactor store path optional x := by
          unfold overrideFactor
          rw [shouldSkip_congr x.2 y.2 optional e4 e3, e2]
        rw [hfac]

theorem overrideFactor_fixSpec (store : Store) (path : String) (optional : Bool)
    (np : String × Param) :
    overrideFactor store path optional
        (np.1, { np.2 with paramSpec := fixSpec np.2.paramSpec })
      = overrideFactor store path optional np := by
  obtain ⟨n, p⟩ := np
  unfold overrideFactor
  simp only []
  rw [shouldSkip_fixSpec]

theorem factors_fixCommonSpecIssues (store : Store) (path : String) (optional : Bool)
    (ps : List (String × Param)) :
    (fixCommonSpecIssues ps).map (overrideFactor store path optional)
      = ps.map (overrideFactor store path optional) := by
  rw [fixCommonSpecIssues_eq_map, List.map_map]
  exact List.map_congr_left fun np _ => overrideFactor_fixSpec store path optional np

theorem overrideFactor_empty_store (store : Store) (path : String) (optional : Bool)
    (np : String × Param) (h : storeIsEmpty store = true) :
    overrideFactor store path optional np = 1 := by
  have hst : store = [] := by
    unfold storeIsEmpty at h
    exact List.isEmpty_iff.mp h
  subst hst
  unfold overrideFactor storeGet
  simp [List.lookup]

/-- C1: expansion with overrides is the cartesian product over the
overridden parameters.  First conjunct: whenever `set_operation_params`
returns, the operation count equals the product, over the parameters in
declaration order, of the override-list size of each non-skipped overridden
parameter (all other parameters contribute a factor of `1`).  Second
conjunct: with `p1` overridden by `[a, b]` and `p2` by `[1, 2]`, the result
is exactly the four operations `(a,1), (a,2), (b,1), (b,2)` in that order,
and the non-overridden `p3` keeps its baseline fill `42` on every clone. -/
theorem c1_cartesian_expansion :
    (∀ (fuel : Nat) (env : Env) (optional : Bool) (store : Store) (op : Operation)
        (ops : List Operation),
        setOperationParams fuel env optional store op = .ok ops →
        ops.length = (op.params.map (overrideFactor store op.pathName optional)).prod) ∧
    setOperationParams 3 [] false exampleStore exampleOp =
      .ok [expectedOp (.vstr "a") (.vnum 1), expectedOp (.vstr "a") (.vnum 2),
           expectedOp (.vstr "b") (.vnum 1), expectedOp (.vstr "b") (.vnum 2)] := by
  constructor
  · intro fuel env optional store op ops h
    unfold setOperationParams at h
    simp only [bind, Except.bind] at h
    cases hm : (fixCommonSpecIssues op.params).mapM (fillParamEntry fuel env optional) with
    | error e =>
      rw [hm] at h
      simp at h
    | ok filled =>
      rw [hm] at h
      by_cases hse : storeIsEmpty store = true
      · simp only [hse, if_true, pure, Except.pure, Except.ok.injEq] at h
        subst h
        have hones : ∀ x ∈ op.params.map (overrideFactor store op.pathName optional),
            x = 1 := by
          intro x hx
          obtain ⟨np, _, hnp⟩ := List.mem_map.mp hx
          rw [← hnp]
          exact overrideFactor_empty_store store op.pathName optional np hse
        rw [List.prod_eq_one hones]
        rfl
      · simp only [Bool.not_eq_true] at hse
        simp only [hse, Bool.false_eq_true, if_false, pure, Except.pure,
          Except.ok.injEq] at h
        subst h
        simp only [applyCustomValues]
        rw [foldl_applyCustomStep_length]
        simp only [List.length_cons, List.length_nil, Nat.zero_add, Nat.one_mul]
        rw [mapM_fillParamEntry_factors fuel env optional store op.pathName _ filled hm,
          factors_fixCommonSpecIssues]
  · simp [setOperationParams, fixCommonSpecIssues, fixBadDefaultForNumberTypePass,
      fixStringWithInvalidFormatPass, fixStringFormatPass, fixBadDefaultForNumberTypeSpec,
      fixStringWithInvalidFormatSpec, fixStringFormatSpec, fillParamEntry,
      shouldSkipSettingParamValue, isHeaderWithDefault, isHeader, parameterHasDefault,
      specHasDefault, tryToSetParamValue, getParamValue, getParamValueForPrimitive,
      getParamValueForTypeAndSpec, getParameterType, defaultValuesByType,
      exampleOp, exampleStore, expectedOp, reqIntParam, filledIntParam, integerSpec,
      storeIsEmpty, storeSet, storeGet, storeKey, dictInsert, applyCustomValues,
      applyCustomStep, setCustomParameterValues, setParamFill,
      PSpec.schema, PSpec.format, PSpec.type, PSpec.enum, PSpec.minimum, PSpec.maximum,
      PSpec.name, PSpec.loc, PSpec.default, List.mapM, List.mapM.loop, List.lookup,
      pure, Except.pure, bind, Except.bind]

/-- Witness for C1 discharging the success hypothesis at the concrete
example: the four-operation result has length `2 * 2 * 1 = 4`. -/
theorem c1_witness :
    [expectedOp (.vstr "a") (.vnum 1), expectedOp (.vstr "a") (.vnum 2),
     expectedOp (.vstr "b") (.vnum 1), expectedOp (.vstr "b") (.vnum 2)].length
      = (exampleOp.params.map
          (overrideFactor exampleStore exampleOp.pathName false)).prod :=
  c1_cartesian_expansion.1 3 [] false exampleStore exampleOp _ c1_cartesian_expansion.2

end OpenApiParams
